import Mathlib

/- Formal model of the todo_backend repository: the response-envelope
   utilities (src/utils/messages.js), the relational data core
   (users, tasks, subtasks, tags, categories, notifications), and the
   service layer operating on it. -/

namespace TodoBackend

/-- JSON values, as produced by the Express responders. -/
inductive Json where
  | null : Json
  | str : String → Json
  | arr : List Json → Json
  | obj : List (String × Json) → Json

/-- Field lookup in a JSON object (first binding wins). -/
def Json.lookup : Json → String → Option Json
  | Json.obj fields, key => fields.lookup key
  | _, _ => none

namespace Messages

/-- Embeds Messages.success of src/utils/messages.js: the envelope is
built with keys status, timestamp and message (the payload goes under
the key message).  The timestamp, produced by the clock, is a parameter. -/
def success (timestamp : String) (message : Json) : Json :=
  Json.obj [("status", Json.str "success"), ("timestamp", Json.str timestamp),
            ("message", message)]

/-- Embeds Messages.error of src/utils/messages.js. -/
def error (timestamp : String) (message : Json) : Json :=
  Json.obj [("status", Json.str "error"), ("timestamp", Json.str timestamp),
            ("message", message)]

end Messages

/-- Outcome of a service operation, abstracting the two envelope shapes of
src/utils/messages.js (success with a payload, error with a message); the
clock-dependent timestamp field is kept only in the Json-level model. -/
inductive SvcResult (α : Type) where
  | success : α → SvcResult α
  | error : String → SvcResult α
deriving Repr, DecidableEq

/-- Row of the Users table (src/model/User.js); timestamps omitted as
auto-assigned.  Field casing follows the model definition. -/
structure UserRow where
  userID : Nat
  firstName : String
  lastName : String
  phoneNumber : Option String
  Email : String
  Password : String
deriving Repr, DecidableEq

/-- Row of the Tasks table (src/model/Task.js). -/
structure TaskRow where
  taskID : Nat
  workspaceID : Option Nat
  categoryID : Option Nat
  userID : Option Nat
  title : String
  description : Option String
  dueDate : Option String
  status : String
  priority : String
deriving Repr, DecidableEq

/-- Row of the SubTasks table (src/model/SubTask.js). -/
structure SubTaskRow where
  subTaskID : Nat
  taskID : Option Nat
  title : String
  description : Option String
  dueDate : Option String
  status : String
  priority : String
deriving Repr, DecidableEq

/-- Row of the Tags table (src/model/Tag.js). -/
structure TagRow where
  tagID : Nat
  workspaceID : Option Nat
  name : String
deriving Repr, DecidableEq

/-- Row of the Categories table (src/model/Category.js). -/
structure CategoryRow where
  categoryID : Nat
  workspaceID : Option Nat
  name : String
  description : Option String
deriving Repr, DecidableEq

/-- Row of the Notifications table (src/model/Notification.js). -/
structure NotificationRow where
  notificationID : Nat
  taskID : Option Nat
  userID : Option Nat
  sessionID : Option Nat
  content : String
  type : String
  readStatus : String
deriving Repr, DecidableEq

/-- The relational store reached through src/configuration/Database.js:
one list per table (rows in insertion order, as MySQL returns them absent
an ORDER BY), plus a counter supplying fresh primary keys (modelling
UUIDV4 default values as opaque fresh identifiers). -/
structure DB where
  users : List UserRow
  tasks : List TaskRow
  subTasks : List SubTaskRow
  tags : List TagRow
  taskTags : List (Nat × Nat)
  categories : List CategoryRow
  notifications : List NotificationRow
  nextID : Nat
deriving Repr, DecidableEq

/-- Primary keys of the SubTasks table are pairwise distinct and lie below
the fresh-key counter (what UUIDV4-defaulted keys guarantee). -/
def DB.subTaskKeysWF (db : DB) : Prop :=
  (db.subTasks.map (fun s => s.subTaskID)).Nodup
  ∧ ∀ s ∈ db.subTasks, s.subTaskID < db.nextID

/-- Primary keys of the Tasks table are pairwise distinct and lie below
the fresh-key counter. -/
def DB.taskKeysWF (db : DB) : Prop :=
  (db.tasks.map (fun t => t.taskID)).Nodup
  ∧ ∀ t ∈ db.tasks, t.taskID < db.nextID

/-- Primary keys of the Tags table lie below the fresh-key counter. -/
def DB.tagKeysWF (db : DB) : Prop :=
  ∀ g ∈ db.tags, g.tagID < db.nextID

/-- Primary keys of the Users table lie below the fresh-key counter. -/
def DB.userKeysWF (db : DB) : Prop :=
  ∀ u ∈ db.users, u.userID < db.nextID

namespace Task

/-- Embeds Task.findByPk: primary-key lookup in the Tasks table. -/
def findByPk (db : DB) (taskID : Nat) : Option TaskRow :=
  db.tasks.find? (fun t => t.taskID == taskID)

end Task

namespace SubTask

/-- Embeds SubTask.findByPk: primary-key lookup in the SubTasks table. -/
def findByPk (db : DB) (subTaskID : Nat) : Option SubTaskRow :=
  db.subTasks.find? (fun s => s.subTaskID == subTaskID)

end SubTask

/-- Embeds subTask.destroy(): removes the row with this primary key. -/
def SubTaskRow.destroy (db : DB) (s : SubTaskRow) : DB :=
  { db with subTasks := db.subTasks.filter (fun x => x.subTaskID != s.subTaskID) }

/-- Embeds task.destroy(): removes the row with this primary key. -/
def TaskRow.destroy (db : DB) (t : TaskRow) : DB :=
  { db with tasks := db.tasks.filter (fun x => x.taskID != t.taskID) }

/-- One row-destruction step performed by TaskService.deleteTask, recorded
in order so that the cascade ordering (subtasks first, then the task) is
visible in the model. -/
inductive DestroyEvent where
  | subTask : Nat → DestroyEvent
  | task : Nat → DestroyEvent
deriving Repr, DecidableEq

/-- Partial update payload for a Task row (a field is changed only when
supplied), as accepted by task.update(updatedTaskData). -/
structure TaskPatch where
  workspaceID : Option Nat
  categoryID : Option Nat
  userID : Option Nat
  title : Option String
  description : Option String
  dueDate : Option String
  status : Option String
  priority : Option String
deriving Repr, DecidableEq

/-- Embeds the partial-update semantics of task.update: only supplied
fields change; the primary key is untouched. -/
def applyTaskPatch (t : TaskRow) (p : TaskPatch) : TaskRow :=
  { t with
    workspaceID := p.workspaceID.or t.workspaceID,
    categoryID := p.categoryID.or t.categoryID,
    userID := p.userID.or t.userID,
    title := p.title.getD t.title,
    description := p.description.or t.description,
    dueDate := p.dueDate.or t.dueDate,
    status := p.status.getD t.status,
    priority := p.priority.getD t.priority }

/-- One element of updatedSubTasksData in TaskService.updateTask: an
optional subTaskID plus the subtask fields the caller supplies. -/
structure SubTaskEntry where
  subTaskID : Option Nat
  title : Option String
  description : Option String
  dueDate : Option String
  status : Option String
  priority : Option String
deriving Repr, DecidableEq

/-- Embeds SubTask.update(subTask, where subTaskID): only supplied fields
change on the matched row (setting the primary key to itself included). -/
def applySubTaskEntry (s : SubTaskRow) (e : SubTaskEntry) : SubTaskRow :=
  { s with
    title := e.title.getD s.title,
    description := e.description.or s.description,
    dueDate := e.dueDate.or s.dueDate,
    status := e.status.getD s.status,
    priority := e.priority.getD s.priority }

/-- Subtask payload of the create path (TaskService.saveTask): the fields
of a subtask to be inserted. -/
structure SubTaskData where
  title : Option String
  description : Option String
  dueDate : Option String
  status : Option String
  priority : Option String
deriving Repr, DecidableEq

/-- Task payload of the create path (TaskService.saveTask). -/
structure TaskData where
  workspaceID : Option Nat
  categoryID : Option Nat
  userID : Option Nat
  title : Option String
  description : Option String
  dueDate : Option String
  status : Option String
  priority : Option String
deriving Repr, DecidableEq

namespace Task

/-- Embeds Task.create: title is NOT NULL, status and priority take the
defaults declared in src/model/Task.js, and the primary key defaults to a
fresh identifier (UUIDV4 in the schema). -/
def create (db : DB) (d : TaskData) : Except String (TaskRow × DB) :=
  match d.title with
  | none => Except.error "notNull Violation: Tasks.title cannot be null"
  | some title =>
    let t : TaskRow :=
      { taskID := db.nextID, workspaceID := d.workspaceID,
        categoryID := d.categoryID, userID := d.userID, title := title,
        description := d.description, dueDate := d.dueDate,
        status := d.status.getD "Not Started",
        priority := d.priority.getD "Medium" }
    Except.ok (t, { db with tasks := db.tasks ++ [t], nextID := db.nextID + 1 })

end Task

namespace SubTask

/-- Embeds SubTask.create on the save path: title is NOT NULL, status and
priority take the defaults of src/model/SubTask.js, the foreign key is the
parent task identifier, and the primary key is fresh. -/
def create (db : DB) (taskID : Nat) (d : SubTaskData) :
    Except String (SubTaskRow × DB) :=
  match d.title with
  | none => Except.error "notNull Violation: SubTasks.title cannot be null"
  | some title =>
    let s : SubTaskRow :=
      { subTaskID := db.nextID, taskID := some taskID, title := title,
        description := d.description, dueDate := d.dueDate,
        status := d.status.getD "Pending", priority := d.priority.getD "Medium" }
    Except.ok (s, { db with subTasks := db.subTasks ++ [s],
                            nextID := db.nextID + 1 })

end SubTask

namespace TaskService

/-- Embeds TaskService.deleteTask (src/utils/messages.js, TaskService):
load the task by primary key together with its subtasks; if absent, the
thrown "Task not found" is caught and turned into an error envelope;
otherwise destroy every loaded subtask and only then destroy the task.
Returns the envelope, the resulting store, and the destruction trace. -/
def deleteTask (db : DB) (taskID : Nat) :
    SvcResult TaskRow × DB × List DestroyEvent :=
  match Task.findByPk db taskID with
  | none => (SvcResult.error "Task not found", db, [])
  | some taskToDelete =>
    let subs := db.subTasks.filter (fun s => s.taskID == some taskID)
    let db1 := subs.foldl SubTaskRow.destroy db
    let db2 := TaskRow.destroy db1 taskToDelete
    (SvcResult.success taskToDelete, db2,
      subs.map (fun s => DestroyEvent.subTask s.subTaskID)
        ++ [DestroyEvent.task taskID])

/-- Models the Promise.all over SubTask.create in TaskService.saveTask:
every insert is attempted (a rejection does not undo or cancel the
others), and the first rejection is the one reported. -/
def createSubTasks (taskID : Nat) (db : DB) :
    List SubTaskData → Option String × DB
  | [] => (none, db)
  | d :: ds =>
    match SubTask.create db taskID d with
    | Except.error msg =>
      let rest := createSubTasks taskID db ds
      (some msg, rest.2)
    | Except.ok x =>
      let rest := createSubTasks taskID x.2 ds
      (rest.1, rest.2)

/-- Embeds TaskService.saveTask: create the Task row first, then every
subtask with the new task identifier as foreign key; a rejected subtask
insert is caught only after all inserts ran, and nothing is rolled back. -/
def saveTask (db : DB) (taskData : TaskData) (subTasksData : List SubTaskData) :
    SvcResult TaskRow × DB :=
  match Task.create db taskData with
  | Except.error msg => (SvcResult.error msg, db)
  | Except.ok (newTask, db1) =>
    let r := createSubTasks newTask.taskID db1 subTasksData
    match r.1 with
    | some msg => (SvcResult.error msg, r.2)
    | none => (SvcResult.success newTask, r.2)

/-- Effect of one element of updatedSubTasksData in updateTask: with an
identifier, SubTask.update patches the rows carrying that primary key;
without one, SubTask.create inserts a new row attached to the task (title
being NOT NULL). -/
def applyEntry (taskID : Nat) (db : DB) (e : SubTaskEntry) : Option String × DB :=
  match e.subTaskID with
  | some sid =>
    let g := fun (m : SubTaskRow) =>
      if m.subTaskID == sid then applySubTaskEntry m e else m
    (none, { db with subTasks := db.subTasks.map g })
  | none =>
    match e.title with
    | none => (some "notNull Violation: SubTasks.title cannot be null", db)
    | some title =>
      let s : SubTaskRow :=
        { subTaskID := db.nextID, taskID := some taskID, title := title,
          description := e.description, dueDate := e.dueDate,
          status := e.status.getD "Pending",
          priority := e.priority.getD "Medium" }
      (none, { db with subTasks := db.subTasks ++ [s],
                       nextID := db.nextID + 1 })

/-- Models the Promise.all over the subtask entries in updateTask. -/
def runEntries (taskID : Nat) (db : DB) :
    List SubTaskEntry → Option String × DB
  | [] => (none, db)
  | e :: es =>
    let r := applyEntry taskID db e
    let rest := runEntries taskID r.2 es
    (r.1.or rest.1, rest.2)

/-- Embeds TaskService.updateTask: load the task (NotFound envelope when
absent), apply the partial update to the task row, then process each
subtask entry; no subtask is ever deleted by this operation. -/
def updateTask (db : DB) (taskID : Nat) (updatedTaskData : TaskPatch)
    (updatedSubTasksData : List SubTaskEntry) : SvcResult TaskRow × DB :=
  match Task.findByPk db taskID with
  | none => (SvcResult.error "Task not found", db)
  | some taskToUpdate =>
    let gT := fun (t : TaskRow) =>
      if t.taskID == taskID then applyTaskPatch t updatedTaskData else t
    let db1 := { db with tasks := db.tasks.map gT }
    let r := runEntries taskID db1 updatedSubTasksData
    match r.1 with
    | some msg => (SvcResult.error msg, r.2)
    | none => (SvcResult.success (applyTaskPatch taskToUpdate updatedTaskData), r.2)

/-- Embeds TaskService.findTasksByTag: the required include places the
workspace filter on the TAG ({name: tagName, workspaceID: workspaceID}),
so the rows returned are exactly the tasks linked through TaskTags to a
tag matching that name and workspace; the task row itself carries no
workspace condition. -/
def findTasksByTag (db : DB) (tagName : String) (workspaceID : Nat) :
    SvcResult (List TaskRow) :=
  SvcResult.success (db.tasks.filter (fun t =>
    db.taskTags.any (fun tt =>
      tt.1 == t.taskID && db.tags.any (fun g =>
        g.tagID == tt.2 && g.name == tagName
          && g.workspaceID == some workspaceID))))

end TaskService

/-- Body of a POST /notification request: the fields the client may send,
including a possible caller-supplied readStatus, which the controller
never reads. -/
structure NotifCreateBody where
  userID : Nat
  message : String
  readStatus : Option String
  type : Option String
deriving Repr, DecidableEq

namespace NotificationService

/-- Embeds NotificationService.createNotification
(src/service/NotificationService.js): inserts a row whose readStatus is
hard-coded to "Unread" and whose taskID/sessionID are not supplied. -/
def createNotification (db : DB) (userID : Nat) (content : String)
    (ty : String) : SvcResult NotificationRow × DB :=
  let n : NotificationRow :=
    { notificationID := db.nextID, taskID := none, userID := some userID,
      sessionID := none, content := content, type := ty,
      readStatus := "Unread" }
  (SvcResult.success n,
   { db with notifications := db.notifications ++ [n],
             nextID := db.nextID + 1 })

/-- Embeds NotificationService.markAsRead: look the row up by primary key,
return the NotFound envelope when absent, otherwise set readStatus to
"Read" and save. -/
def markAsRead (db : DB) (notificationID : Nat) :
    SvcResult NotificationRow × DB :=
  match db.notifications.find? (fun n => n.notificationID == notificationID) with
  | none => (SvcResult.error "Notification not found", db)
  | some n =>
    let setRead := fun (m : NotificationRow) =>
      if m.notificationID == notificationID
      then { m with readStatus := "Read" } else m
    (SvcResult.success { n with readStatus := "Read" },
     { db with notifications := db.notifications.map setRead })

/-- Embeds NotificationService.deleteNotification. -/
def deleteNotification (db : DB) (notificationID : Nat) :
    SvcResult String × DB :=
  match db.notifications.find? (fun n => n.notificationID == notificationID) with
  | none => (SvcResult.error "Notification not found", db)
  | some _ =>
    let keep := fun (m : NotificationRow) => m.notificationID != notificationID
    (SvcResult.success "Notification deleted successfully",
     { db with notifications := db.notifications.filter keep })

end NotificationService

namespace NotificationController

/-- Embeds NotificationController.createNotification
(src/controller/NotificationController.js): destructures only userID and
message from the body — a caller-supplied readStatus or type is dropped —
and calls the service, whose type parameter defaults to "Reminder". -/
def createNotification (db : DB) (body : NotifCreateBody) :
    SvcResult NotificationRow × DB :=
  NotificationService.createNotification db body.userID body.message "Reminder"

end NotificationController

/-- The notification operations exposed by the HTTP API, as state
transformers on the store (the read endpoint leaves it unchanged). -/
inductive NotifOp where
  | create : NotifCreateBody → NotifOp
  | getForUser : Nat → NotifOp
  | markAsRead : Nat → NotifOp
  | deleteNotification : Nat → NotifOp
deriving Repr, DecidableEq

/-- State effect of one notification operation. -/
def NotifOp.apply (db : DB) : NotifOp → DB
  | NotifOp.create body => (NotificationController.createNotification db body).2
  | NotifOp.getForUser _ => db
  | NotifOp.markAsRead nid => (NotificationService.markAsRead db nid).2
  | NotifOp.deleteNotification nid =>
      (NotificationService.deleteNotification db nid).2

/-- Result passed to passport's done callback by the LocalStrategy verify
function. -/
inductive AuthResult where
  | failure : String → AuthResult
  | success : UserRow → AuthResult
deriving Repr, DecidableEq

/-- Embeds the passport LocalStrategy verify callback
(src/unnamed/part_000): look the user up by unique Email, answer
"Incorrect email." when absent; otherwise bcrypt.compare — an external
library primitive, supplied here as a parameter — decides between
"Incorrect password." and success with the user row. -/
def localStrategyVerify (compare : String → String → Bool)
    (users : List UserRow) (email password : String) : AuthResult :=
  match users.find? (fun u => u.Email == email) with
  | none => AuthResult.failure "Incorrect email."
  | some user =>
    if compare password user.Password then AuthResult.success user
    else AuthResult.failure "Incorrect password."

/-- Caller-supplied user payload (request body) of the user create path. -/
structure UserData where
  firstName : Option String
  lastName : Option String
  phoneNumber : Option String
  Email : Option String
  Password : Option String
deriving Repr, DecidableEq

/-- DTO produced by UserView.toDTO (src/unnamed/part_005): the password is
stripped and fullName is rendered from the name parts (createdAt, an
auto-assigned timestamp, is omitted from the model). -/
structure UserDTO where
  userId : Nat
  fullName : String
  email : String
  phoneNumber : Option String
deriving Repr, DecidableEq

/-- Embeds UserView.toDTO. -/
def UserView.toDTO (u : UserRow) : UserDTO :=
  { userId := u.userID, fullName := u.firstName ++ " " ++ u.lastName,
    email := u.Email, phoneNumber := u.phoneNumber }

namespace User

/-- The /^[a-zA-Z]+$/ validation pattern of the name columns. -/
def nameOK (s : String) : Bool :=
  !s.isEmpty && s.data.all (fun c => c.isAlpha)

/-- The /^[0-9-]+$/ validation pattern of the nullable phone column. -/
def phoneOK : Option String → Bool
  | none => true
  | some s => !s.isEmpty && s.data.all (fun c => c.isDigit || c == '-')

/-- Embeds User.create with the column validations visible in
src/model/User.js (name patterns, phone pattern, password length in
[8,100], unique Email); the library-internal isEmail format check is not
modelled.  Every field of the caller-supplied data is persisted verbatim —
no hashing step exists anywhere in the repository. -/
def create (db : DB) (d : UserData) : Except String (UserRow × DB) :=
  match d.firstName, d.lastName, d.Email, d.Password with
  | some fn, some ln, some em, some pw =>
    if nameOK fn && nameOK ln && phoneOK d.phoneNumber
        && decide (8 ≤ pw.length) && decide (pw.length ≤ 100)
        && !(db.users.any (fun u => u.Email == em)) then
      let u : UserRow :=
        { userID := db.nextID, firstName := fn, lastName := ln,
          phoneNumber := d.phoneNumber, Email := em, Password := pw }
      Except.ok (u, { db with users := db.users ++ [u],
                              nextID := db.nextID + 1 })
    else Except.error "Validation error"
  | _, _, _, _ => Except.error "notNull Violation"

end User

namespace UserService

/-- Embeds UserService.saveUser: User.create on the caller-supplied data,
then the view projection of the new row. -/
def saveUser (db : DB) (userData : UserData) : SvcResult UserDTO × DB :=
  match User.create db userData with
  | Except.error msg => (SvcResult.error msg, db)
  | Except.ok (u, db1) => (SvcResult.success (UserView.toDTO u), db1)

/-- Embeds UserService.findUserByID: primary-key lookup, "User not found"
envelope when absent, view projection otherwise. -/
def findUserByID (db : DB) (userID : Nat) : SvcResult UserDTO :=
  match db.users.find? (fun u => u.userID == userID) with
  | none => SvcResult.error "User not found"
  | some u => SvcResult.success (UserView.toDTO u)

/-- Truthiness of an optional request parameter as JavaScript sees it: an
absent value and the empty string both count as not provided. -/
def provided : Option String → Bool
  | none => false
  | some s => !s.isEmpty

/-- Embeds UserService.searchUsersByName: rejects an empty filter with one
error envelope, an empty result set with another, and otherwise answers
the view projections of the equality-filtered users. -/
def searchUsersByName (db : DB) (firstName lastName : Option String) :
    SvcResult (List UserDTO) :=
  if !provided firstName && !provided lastName then
    SvcResult.error "No search parameters provided"
  else
    let users := db.users.filter (fun u =>
      (!provided firstName || u.firstName == firstName.getD "")
      && (!provided lastName || u.lastName == lastName.getD ""))
    if users.isEmpty then
      SvcResult.error "No users found matching the criteria"
    else SvcResult.success (users.map UserView.toDTO)

end UserService

/-- Caller-supplied tag payload of the tag create path. -/
structure TagData where
  workspaceID : Option Nat
  name : Option String
deriving Repr, DecidableEq

namespace Tag

/-- Embeds Tag.findByPk: primary-key lookup in the Tags table. -/
def findByPk (db : DB) (tagID : Nat) : Option TagRow :=
  db.tags.find? (fun g => g.tagID == tagID)

/-- Embeds Tag.create: name is NOT NULL, the primary key is fresh. -/
def create (db : DB) (d : TagData) : Except String (TagRow × DB) :=
  match d.name with
  | none => Except.error "notNull Violation: Tags.name cannot be null"
  | some name =>
    let g : TagRow :=
      { tagID := db.nextID, workspaceID := d.workspaceID, name := name }
    Except.ok (g, { db with tags := db.tags ++ [g], nextID := db.nextID + 1 })

end Tag

namespace TagService

/-- Embeds TagService.findTagByID. -/
def findTagByID (db : DB) (tagID : Nat) : SvcResult TagRow :=
  match Tag.findByPk db tagID with
  | none => SvcResult.error "Tag not found"
  | some g => SvcResult.success g

/-- Embeds TagService.saveTag. -/
def saveTag (db : DB) (tagData : TagData) : SvcResult TagRow × DB :=
  match Tag.create db tagData with
  | Except.error msg => (SvcResult.error msg, db)
  | Except.ok (g, db1) => (SvcResult.success g, db1)

end TagService

/-- Concrete task used for the C2 witness. -/
def tC2 : TaskRow :=
  { taskID := 1, workspaceID := some 9, categoryID := none, userID := none,
    title := "t", description := none, dueDate := none,
    status := "Not Started", priority := "Medium" }

/-- Concrete subtask used for the C2 witness. -/
def sC2a : SubTaskRow :=
  { subTaskID := 2, taskID := some 1, title := "a", description := none,
    dueDate := none, status := "Pending", priority := "Medium" }

/-- Second concrete subtask used for the C2 witness. -/
def sC2b : SubTaskRow :=
  { subTaskID := 3, taskID := some 1, title := "b", description := none,
    dueDate := none, status := "Pending", priority := "Medium" }

/-- Concrete store used for the C2 witness. -/
def dbC2 : DB :=
  { users := [], tasks := [tC2], subTasks := [sC2a, sC2b], tags := [],
    taskTags := [], categories := [], notifications := [], nextID := 4 }

/-- Concrete notification used for the C3 witness. -/
def nC3 : NotificationRow :=
  { notificationID := 0, taskID := none, userID := some 7, sessionID := none,
    content := "hello", type := "Reminder", readStatus := "Unread" }

/-- Concrete request body used for the C3 witness: the caller tries to
supply readStatus "Read". -/
def bodyC3 : NotifCreateBody :=
  { userID := 7, message := "hello", readStatus := some "Read",
    type := some "Invite" }

/-- Concrete store used for the C3 witness. -/
def dbC3 : DB :=
  { users := [], tasks := [], subTasks := [], tags := [], taskTags := [],
    categories := [], notifications := [nC3], nextID := 1 }

/-- Concrete task used for the C4 witness. -/
def tC4 : TaskRow :=
  { taskID := 1, workspaceID := some 5, categoryID := none, userID := none,
    title := "T", description := none, dueDate := none,
    status := "Not Started", priority := "Medium" }

/-- Concrete subtask S1 used for the C4 witness. -/
def s1C4 : SubTaskRow :=
  { subTaskID := 2, taskID := some 1, title := "s1", description := none,
    dueDate := none, status := "Pending", priority := "Medium" }

/-- Concrete subtask S2 used for the C4 witness; it is mentioned by no
update entry. -/
def s2C4 : SubTaskRow :=
  { subTaskID := 3, taskID := some 1, title := "s2", description := none,
    dueDate := none, status := "Pending", priority := "Medium" }

/-- Concrete store used for the C4 witness. -/
def dbC4 : DB :=
  { users := [], tasks := [tC4], subTasks := [s1C4, s2C4], tags := [],
    taskTags := [], categories := [], notifications := [], nextID := 4 }

/-- Concrete task patch used for the C4 witness: status Completed. -/
def patchC4 : TaskPatch :=
  { workspaceID := none, categoryID := none, userID := none, title := none,
    description := none, dueDate := none, status := some "Completed",
    priority := none }

/-- Concrete subtask entry targeting S1 used for the C4 witness. -/
def e1C4 : SubTaskEntry :=
  { subTaskID := some 2, title := none, description := none, dueDate := none,
    status := some "Completed", priority := none }

/-- Concrete identifierless subtask entry used for the C4 witness. -/
def e2C4 : SubTaskEntry :=
  { subTaskID := none, title := some "new", description := none,
    dueDate := none, status := some "Pending", priority := none }

/-- Concrete task payload used for the C5 witness. -/
def tdC5 : TaskData :=
  { workspaceID := some 1, categoryID := none, userID := none,
    title := some "T", description := none, dueDate := none, status := none,
    priority := none }

/-- Concrete valid subtask payload used for the C5 witness. -/
def sdGoodC5 : SubTaskData :=
  { title := some "ok", description := none, dueDate := none, status := none,
    priority := none }

/-- Concrete invalid subtask payload (missing NOT NULL title) used for the
C5 witness. -/
def sdBadC5 : SubTaskData :=
  { title := none, description := none, dueDate := none, status := none,
    priority := none }

/-- Concrete empty store used for the C5 witness. -/
def dbC5 : DB :=
  { users := [], tasks := [], subTasks := [], tags := [], taskTags := [],
    categories := [], notifications := [], nextID := 0 }

/-- The task row created from tdC5 in the C5 witness. -/
def tC5 : TaskRow :=
  { taskID := 0, workspaceID := some 1, categoryID := none, userID := none,
    title := "T", description := none, dueDate := none,
    status := "Not Started", priority := "Medium" }

/-- The store holding the new task row in the C5 witness. -/
def dbC5b : DB :=
  { users := [], tasks := [tC5], subTasks := [], tags := [], taskTags := [],
    categories := [], notifications := [], nextID := 1 }

/-- Concrete task belonging to workspace 10, used for the C6 input. -/
def tC6 : TaskRow :=
  { taskID := 1, workspaceID := some 10, categoryID := none, userID := none,
    title := "X", description := none, dueDate := none,
    status := "Not Started", priority := "Medium" }

/-- Concrete tag named urgent belonging to workspace 20, used for the C6
input. -/
def gC6 : TagRow := { tagID := 2, workspaceID := some 20, name := "urgent" }

/-- Concrete store used for the C6 input: the workspace-10 task is linked
through the join table to the workspace-20 tag. -/
def dbC6 : DB :=
  { users := [], tasks := [tC6], subTasks := [], tags := [gC6],
    taskTags := [(1, 2)], categories := [], notifications := [], nextID := 3 }

/-- Concrete stored-hash comparison used for the C7 witness: the hash of a
plaintext is modelled as the plaintext with a marker appended. -/
def cmpC7 : String → String → Bool := fun p s => (p ++ "#") == s

/-- Concrete user used for the C7 witness; the stored Password is the
modelled hash of the plaintext pw. -/
def uC7 : UserRow :=
  { userID := 1, firstName := "Ann", lastName := "Bee", phoneNumber := none,
    Email := "a@b.c", Password := "pw#" }

/-- Concrete user payload carrying a plaintext password, used for the C8
input. -/
def udC8 : UserData :=
  { firstName := some "John", lastName := some "Doe", phoneNumber := none,
    Email := some "john@doe.com", Password := some "plaintextpw" }

/-- Concrete empty store used for the C8 input. -/
def dbC8 : DB :=
  { users := [], tasks := [], subTasks := [], tags := [], taskTags := [],
    categories := [], notifications := [], nextID := 0 }

/-- The user row persisted from udC8: the Password column holds the
plaintext itself. -/
def uC8 : UserRow :=
  { userID := 0, firstName := "John", lastName := "Doe", phoneNumber := none,
    Email := "john@doe.com", Password := "plaintextpw" }

/-- Concrete empty store used for the C9 witness. -/
def dbC9 : DB :=
  { users := [], tasks := [], subTasks := [], tags := [], taskTags := [],
    categories := [], notifications := [], nextID := 0 }

/-- Concrete tag payload used for the C9 witness. -/
def tdC9 : TagData := { workspaceID := some 7, name := some "blue" }

/-- The tag row created from tdC9 in the C9 witness. -/
def gC9 : TagRow := { tagID := 0, workspaceID := some 7, name := "blue" }

/-- Concrete user payload used for the C9 witness. -/
def udC9 : UserData :=
  { firstName := some "John", lastName := some "Doe", phoneNumber := none,
    Email := some "j@d.com", Password := some "password1" }

/-- The view DTO of the user created from udC9 in the C9 witness. -/
def dtoC9 : UserDTO :=
  { userId := 0, fullName := "John Doe", email := "j@d.com",
    phoneNumber := none }

/-- Concrete stored user used for the C10 witness. -/
def uC10 : UserRow :=
  { userID := 1, firstName := "Ann", lastName := "Bee", phoneNumber := none,
    Email := "a@b.c", Password := "password1" }

/-- Concrete store used for the C10 witness. -/
def dbC10 : DB :=
  { users := [uC10], tasks := [], subTasks := [], tags := [], taskTags := [],
    categories := [], notifications := [], nextID := 2 }

theorem tasks_foldl_destroy (subs : List SubTaskRow) (db : DB) :
    (subs.foldl SubTaskRow.destroy db).tasks = db.tasks := by
  induction subs generalizing db with
  | nil => rfl
  | cons s ss ih => rw [List.foldl_cons, ih]; rfl

theorem mem_subTasks_foldl_destroy (subs : List SubTaskRow) (db : DB)
    (x : SubTaskRow) :
    x ∈ (subs.foldl SubTaskRow.destroy db).subTasks ↔
      x ∈ db.subTasks ∧ ∀ s ∈ subs, x.subTaskID ≠ s.subTaskID := by
  induction subs generalizing db with
  | nil => simp
  | cons s ss ih =>
    rw [List.foldl_cons, ih]
    simp only [SubTaskRow.destroy, List.mem_filter, List.mem_cons, bne_iff_ne,
      ne_eq]
    constructor
    · rintro ⟨⟨hx, hs⟩, hss⟩
      exact ⟨hx, fun s' hs' => hs'.elim (fun h => h ▸ hs) (hss s')⟩
    · rintro ⟨hx, hall⟩
      exact ⟨⟨hx, hall s (Or.inl rfl)⟩, fun s' hs' => hall s' (Or.inr hs')⟩

theorem find?_map_of_pred {α : Type} (g : α → α) (p : α → Bool) (l : List α)
    (hg : ∀ x, p (g x) = p x) :
    (l.map g).find? p = (l.find? p).map g := by
  induction l with
  | nil => rfl
  | cons a l ih =>
    by_cases h : p a
    · rw [List.map_cons, List.find?_cons_of_pos _ (by rw [hg]; exact h),
        List.find?_cons_of_pos _ h, Option.map_some']
    · rw [List.map_cons, List.find?_cons_of_neg _ (by rw [hg]; simpa using h),
        List.find?_cons_of_neg _ (by simpa using h), ih]

theorem find?_filter_of_imp {α : Type} (q p : α → Bool) (l : List α)
    (h : ∀ x, p x = true → q x = true) :
    (l.filter q).find? p = l.find? p := by
  induction l with
  | nil => rfl
  | cons a l ih =>
    by_cases hq : q a
    · by_cases hp : p a
      · rw [List.filter_cons_of_pos hq, List.find?_cons_of_pos _ hp,
          List.find?_cons_of_pos _ hp]
      · rw [List.filter_cons_of_pos hq,
          List.find?_cons_of_neg _ (by simpa using hp),
          List.find?_cons_of_neg _ (by simpa using hp), ih]
    · have hp : ¬ p a = true := fun hc => hq (h a hc)
      rw [List.filter_cons_of_neg (by simpa using hq),
        List.find?_cons_of_neg _ (by simpa using hp), ih]

theorem find?_key_of_mem_nodup {α : Type} (key : α → Nat) (l : List α)
    (s : α) (hnd : (l.map key).Nodup) (hs : s ∈ l) :
    l.find? (fun x => key x == key s) = some s := by
  induction l with
  | nil => cases hs
  | cons a l ih =>
    rw [List.map_cons, List.nodup_cons] at hnd
    rcases List.mem_cons.mp hs with rfl | hmem
    · exact List.find?_cons_of_pos _ (by simp)
    · have hne : key a ≠ key s :=
        fun h => hnd.1 (h ▸ List.mem_map_of_mem key hmem)
      rw [List.find?_cons_of_neg _ (by simpa using hne), ih hnd.2 hmem]

theorem runEntries_cons_fst (tid : Nat) (db : DB) (e : SubTaskEntry)
    (es : List SubTaskEntry) :
    (TaskService.runEntries tid db (e :: es)).1
      = (TaskService.applyEntry tid db e).1.or
          (TaskService.runEntries tid (TaskService.applyEntry tid db e).2 es).1 := rfl

theorem runEntries_cons_snd (tid : Nat) (db : DB) (e : SubTaskEntry)
    (es : List SubTaskEntry) :
    (TaskService.runEntries tid db (e :: es)).2
      = (TaskService.runEntries tid (TaskService.applyEntry tid db e).2 es).2 := rfl

theorem applyEntry_tasks (tid : Nat) (db : DB) (e : SubTaskEntry) :
    (TaskService.applyEntry tid db e).2.tasks = db.tasks := by
  cases he : e.subTaskID with
  | some sid => simp [TaskService.applyEntry, he]
  | none =>
    cases ht : e.title with
    | none => simp [TaskService.applyEntry, he, ht]
    | some ttl => simp [TaskService.applyEntry, he, ht]

theorem runEntries_tasks (tid : Nat) (es : List SubTaskEntry) (db : DB) :
    (TaskService.runEntries tid db es).2.tasks = db.tasks := by
  induction es generalizing db with
  | nil => rfl
  | cons e es ih => rw [runEntries_cons_snd, ih, applyEntry_tasks]

theorem applyEntry_err (tid : Nat) (db : DB) (e : SubTaskEntry)
    (h : e.subTaskID = none → e.title.isSome) :
    (TaskService.applyEntry tid db e).1 = none := by
  cases he : e.subTaskID with
  | some sid => simp [TaskService.applyEntry, he]
  | none =>
    cases ht : e.title with
    | none => simp [he, ht] at h
    | some ttl => simp [TaskService.applyEntry, he, ht]

theorem runEntries_err (tid : Nat) (es : List SubTaskEntry) (db : DB)
    (h : ∀ e ∈ es, e.subTaskID = none → e.title.isSome) :
    (TaskService.runEntries tid db es).1 = none := by
  induction es generalizing db with
  | nil => rfl
  | cons e es ih =>
    rw [runEntries_cons_fst, applyEntry_err tid db e (h e (by simp)),
      ih _ (fun x hx => h x (by simp [hx]))]
    rfl

theorem applyEntry_find?_pk (tid : Nat) (db : DB) (e : SubTaskEntry)
    (sid : Nat) (s0 : SubTaskRow) (hlt : sid < db.nextID)
    (hfind : db.subTasks.find? (fun x => x.subTaskID == sid) = some s0) :
    sid < (TaskService.applyEntry tid db e).2.nextID
    ∧ (TaskService.applyEntry tid db e).2.subTasks.find?
        (fun x => x.subTaskID == sid)
      = some (if e.subTaskID == some sid then applySubTaskEntry s0 e else s0) := by
  have hs0 : s0.subTaskID = sid := by simpa using List.find?_some hfind
  cases he : e.subTaskID with
  | some sid0 =>
    refine ⟨by simpa [TaskService.applyEntry, he] using hlt, ?_⟩
    simp only [TaskService.applyEntry, he]
    rw [find?_map_of_pred _ _ _ (fun x => by
      by_cases h : (x.subTaskID == sid0) <;> simp [h, applySubTaskEntry]),
      hfind]
    simp only [Option.map_some', Option.some.injEq]
    by_cases h : sid0 = sid
    · subst h
      simp [hs0]
    · rw [if_neg (show ¬ ((s0.subTaskID == sid0) = true) by
          simp only [beq_iff_eq, hs0]
          exact fun hc => h hc.symm),
        if_neg (show ¬ ((some sid0 == some sid) = true) by
          simp only [Option.some.injEq, beq_iff_eq]
          exact h)]
  | none =>
    cases ht : e.title with
    | none =>
      refine ⟨by simpa [TaskService.applyEntry, he, ht] using hlt, ?_⟩
      simp [TaskService.applyEntry, he, ht, hfind]
    | some ttl =>
      constructor
      · simp only [TaskService.applyEntry, he, ht]
        omega
      · simp only [TaskService.applyEntry, he, ht]
        rw [List.find?_append, hfind]
        simp

theorem runEntries_find?_pk (tid : Nat) (es : List SubTaskEntry) (db : DB)
    (sid : Nat) (s0 : SubTaskRow) (hlt : sid < db.nextID)
    (hfind : db.subTasks.find? (fun x => x.subTaskID == sid) = some s0) :
    (TaskService.runEntries tid db es).2.subTasks.find?
        (fun x => x.subTaskID == sid)
      = some (es.foldl
          (fun s e => if e.subTaskID == some sid then applySubTaskEntry s e else s) s0) := by
  induction es generalizing db s0 with
  | nil => simpa using hfind
  | cons e es ih =>
    rw [runEntries_cons_snd, List.foldl_cons]
    exact ih _ _ (applyEntry_find?_pk tid db e sid s0 hlt hfind).1
      (applyEntry_find?_pk tid db e sid s0 hlt hfind).2

theorem foldl_skip {α β : Type} (f : α → β → α) (q : β → Bool)
    (es : List β) (a : α) (h : ∀ e ∈ es, q e = false) :
    es.foldl (fun s e => if q e then f s e else s) a = a := by
  induction es generalizing a with
  | nil => rfl
  | cons e es ih =>
    rw [List.foldl_cons, if_neg (by simp [h e (by simp)]),
      ih _ (fun x hx => h x (by simp [hx]))]

theorem applyEntry_length (tid : Nat) (db : DB) (e : SubTaskEntry)
    (h : e.subTaskID = none → e.title.isSome) :
    (TaskService.applyEntry tid db e).2.subTasks.length
      = db.subTasks.length + (if e.subTaskID == none then 1 else 0) := by
  cases he : e.subTaskID with
  | some sid => simp [TaskService.applyEntry, he]
  | none =>
    cases ht : e.title with
    | none => simp [he, ht] at h
    | some ttl => simp [TaskService.applyEntry, he, ht]

theorem runEntries_length (tid : Nat) (es : List SubTaskEntry) (db : DB)
    (h : ∀ e ∈ es, e.subTaskID = none → e.title.isSome) :
    (TaskService.runEntries tid db es).2.subTasks.length
      = db.subTasks.length + (es.filter (fun e => e.subTaskID == none)).length := by
  induction es generalizing db with
  | nil => simp [TaskService.runEntries]
  | cons e es ih =>
    rw [runEntries_cons_snd, ih _ (fun x hx => h x (by simp [hx])),
      applyEntry_length tid db e (h e (by simp))]
    cases he : e.subTaskID with
    | some sid => simp [List.filter_cons, he]
    | none =>
      simp only [List.filter_cons, he]
      simp
      omega

theorem applyEntry_rows (tid N : Nat) (db : DB) (e : SubTaskEntry)
    (hN : N ≤ db.nextID)
    (hrows : ∀ s ∈ db.subTasks, s.subTaskID < N ∨ s.taskID = some tid) :
    N ≤ (TaskService.applyEntry tid db e).2.nextID
    ∧ ∀ x ∈ (TaskService.applyEntry tid db e).2.subTasks,
        x.subTaskID < N ∨ x.taskID = some tid := by
  cases he : e.subTaskID with
  | some sid =>
    refine ⟨by simpa [TaskService.applyEntry, he] using hN, ?_⟩
    intro x hx
    simp only [TaskService.applyEntry, he, List.mem_map] at hx
    obtain ⟨y, hy, rfl⟩ := hx
    rcases hrows y hy with h | h
    · left
      by_cases hc : (y.subTaskID == sid) <;> simp [hc, applySubTaskEntry, h]
    · right
      by_cases hc : (y.subTaskID == sid) <;> simp [hc, applySubTaskEntry, h]
  | none =>
    cases ht : e.title with
    | none =>
      exact ⟨by simpa [TaskService.applyEntry, he, ht] using hN,
        by simpa [TaskService.applyEntry, he, ht] using hrows⟩
    | some ttl =>
      constructor
      · simp only [TaskService.applyEntry, he, ht]
        omega
      · intro x hx
        simp only [TaskService.applyEntry, he, ht, List.mem_append,
          List.mem_singleton] at hx
        rcases hx with hx | rfl
        · exact hrows x hx
        · right
          rfl

theorem runEntries_rows (tid N : Nat) (es : List SubTaskEntry) (db : DB)
    (hN : N ≤ db.nextID)
    (hrows : ∀ s ∈ db.subTasks, s.subTaskID < N ∨ s.taskID = some tid) :
    ∀ x ∈ (TaskService.runEntries tid db es).2.subTasks,
      x.subTaskID < N ∨ x.taskID = some tid := by
  induction es generalizing db with
  | nil => simpa using hrows
  | cons e es ih =>
    rw [runEntries_cons_snd]
    exact ih _ (applyEntry_rows tid N db e hN hrows).1
      (applyEntry_rows tid N db e hN hrows).2

/-- C2: deleteTask destroys every subtask of the task before destroying
the task itself (visible in the trace), fails with the NotFound-style
error exactly when no task with the identifier exists (succeeding in
particular when the subtask list is empty), and after a successful delete
the task lookup and every destroyed subtask lookup return nothing. -/
theorem c2_deleteTask_cascade (db : DB) (taskID : Nat) :
    (Task.findByPk db taskID = none →
      TaskService.deleteTask db taskID = (SvcResult.error "Task not found", db, []))
    ∧ (∀ t : TaskRow, Task.findByPk db taskID = some t →
      (TaskService.deleteTask db taskID).1 = SvcResult.success t
      ∧ (TaskService.deleteTask db taskID).2.2 =
          (db.subTasks.filter (fun s => s.taskID == some taskID)).map
            (fun s => DestroyEvent.subTask s.subTaskID) ++ [DestroyEvent.task taskID]
      ∧ Task.findByPk (TaskService.deleteTask db taskID).2.1 taskID = none
      ∧ ∀ s ∈ db.subTasks.filter (fun s => s.taskID == some taskID),
          SubTask.findByPk (TaskService.deleteTask db taskID).2.1 s.subTaskID = none) := by
  constructor
  · intro h
    simp [TaskService.deleteTask, h]
  · intro t ht
    have htid : t.taskID = taskID := by
      have := List.find?_some ht
      simpa using this
    refine ⟨?_, ?_, ?_, ?_⟩
    · simp [TaskService.deleteTask, ht]
    · simp [TaskService.deleteTask, ht]
    · simp only [TaskService.deleteTask, ht]
      apply List.find?_eq_none.mpr
      intro x hx
      simp only [TaskRow.destroy, List.mem_filter, tasks_foldl_destroy] at hx
      simpa [htid] using hx.2
    · intro s hs
      simp only [TaskService.deleteTask, ht]
      apply List.find?_eq_none.mpr
      intro x hx
      have hx' : x ∈ ((db.subTasks.filter
          (fun s => s.taskID == some taskID)).foldl SubTaskRow.destroy db).subTasks := by
        simpa [TaskRow.destroy] using hx
      have := (mem_subTasks_foldl_destroy _ db x).mp hx'
      have hne := this.2 s hs
      simpa using hne

/-- C2 witness: the cascade theorem evaluated on a task with two subtasks. -/
theorem c2_deleteTask_cascade_witness :
    Task.findByPk dbC2 1 = some tC2
    ∧ (TaskService.deleteTask dbC2 1).1 = SvcResult.success tC2
    ∧ (TaskService.deleteTask dbC2 1).2.2 =
        [DestroyEvent.subTask 2, DestroyEvent.subTask 3, DestroyEvent.task 1]
    ∧ Task.findByPk (TaskService.deleteTask dbC2 1).2.1 1 = none
    ∧ SubTask.findByPk (TaskService.deleteTask dbC2 1).2.1 2 = none
    ∧ SubTask.findByPk (TaskService.deleteTask dbC2 1).2.1 3 = none := by
  have h : Task.findByPk dbC2 1 = some tC2 := by decide
  have main := (c2_deleteTask_cascade dbC2 1).2 tC2 h
  refine ⟨h, main.1, ?_, main.2.2.1, ?_, ?_⟩
  · rw [main.2.1]; decide
  · exact main.2.2.2 sC2a (by decide)
  · exact main.2.2.2 sC2b (by decide)

/-- C3: a created notification starts at readStatus "Unread" regardless of
any caller-supplied value (the controller never forwards one); across every
notification API operation, the only readStatus change ever performed on a
stored row is "Unread" to "Read"; and markAsRead is idempotent: invoking it
again on an already-Read notification succeeds with the same row and leaves
the store unchanged. -/
theorem c3_notification_state_machine (db : DB) :
    (∀ body : NotifCreateBody, ∀ n : NotificationRow,
      (NotificationController.createNotification db body).1 = SvcResult.success n →
        n.readStatus = "Unread"
        ∧ n ∈ (NotificationController.createNotification db body).2.notifications)
    ∧ (∀ op : NotifOp, ∀ nid : Nat, ∀ n n' : NotificationRow,
        (∀ m ∈ db.notifications, m.readStatus = "Unread" ∨ m.readStatus = "Read") →
        db.notifications.find? (fun m => m.notificationID == nid) = some n →
        (NotifOp.apply db op).notifications.find? (fun m => m.notificationID == nid) = some n' →
        n'.readStatus ≠ n.readStatus →
        n.readStatus = "Unread" ∧ n'.readStatus = "Read")
    ∧ (∀ nid : Nat, ∀ n : NotificationRow,
        (NotificationService.markAsRead db nid).1 = SvcResult.success n →
        NotificationService.markAsRead (NotificationService.markAsRead db nid).2 nid
          = (SvcResult.success n, (NotificationService.markAsRead db nid).2)) := by
  refine ⟨?_, ?_, ?_⟩
  · intro body n hn
    simp only [NotificationController.createNotification,
      NotificationService.createNotification, SvcResult.success.injEq] at hn
    subst hn
    exact ⟨rfl, by simp [NotificationController.createNotification,
      NotificationService.createNotification]⟩
  · intro op nid n n' henum hbefore hafter hne
    cases op with
    | create body =>
      simp only [NotifOp.apply, NotificationController.createNotification,
        NotificationService.createNotification] at hafter
      rw [List.find?_append, hbefore] at hafter
      simp only [Option.or_some, Option.some.injEq] at hafter
      exact absurd (hafter ▸ rfl) hne
    | getForUser uid =>
      simp only [NotifOp.apply] at hafter
      rw [hbefore] at hafter
      simp only [Option.some.injEq] at hafter
      exact absurd (hafter ▸ rfl) hne
    | markAsRead nid0 =>
      simp only [NotifOp.apply, NotificationService.markAsRead] at hafter
      cases hfind : db.notifications.find? (fun m => m.notificationID == nid0) with
      | none =>
        rw [hfind] at hafter
        simp only [] at hafter
        rw [hbefore] at hafter
        simp only [Option.some.injEq] at hafter
        exact absurd (hafter ▸ rfl) hne
      | some m =>
        rw [hfind] at hafter
        simp only [] at hafter
        rw [find?_map_of_pred _ _ _ (fun x => by
          by_cases h : (x.notificationID == nid0) <;> simp [h])] at hafter
        rw [hbefore] at hafter
        simp only [Option.map_some', Option.some.injEq] at hafter
        by_cases hn0 : (n.notificationID == nid0)
        · rw [if_pos hn0] at hafter
          have hread : n'.readStatus = "Read" := by rw [← hafter]
          rcases henum n (List.mem_of_find?_eq_some hbefore) with h | h
          · exact ⟨h, hread⟩
          · exact absurd (hread.trans h.symm) hne
        · rw [if_neg hn0] at hafter
          exact absurd (hafter ▸ rfl) hne
    | deleteNotification nid0 =>
      simp only [NotifOp.apply, NotificationService.deleteNotification] at hafter
      cases hfind : db.notifications.find? (fun m => m.notificationID == nid0) with
      | none =>
        rw [hfind] at hafter
        simp only [] at hafter
        rw [hbefore] at hafter
        simp only [Option.some.injEq] at hafter
        exact absurd (hafter ▸ rfl) hne
      | some m =>
        rw [hfind] at hafter
        simp only [] at hafter
        by_cases hnid : nid = nid0
        · subst hnid
          have hmem := List.mem_of_find?_eq_some hafter
          have hp := List.find?_some hafter
          rw [List.mem_filter] at hmem
          have hk := hmem.2
          simp only [bne_iff_ne, ne_eq] at hk
          exact absurd (by simpa using hp) hk
        · rw [find?_filter_of_imp _ _ _ (fun x hx => by
            simp only [bne_iff_ne, ne_eq]
            intro hc
            exact hnid ((by simpa using hx : x.notificationID = nid) ▸ hc ▸ rfl))] at hafter
          rw [hbefore] at hafter
          simp only [Option.some.injEq] at hafter
          exact absurd (hafter ▸ rfl) hne
  · intro nid n hsucc
    cases hfind : db.notifications.find? (fun m => m.notificationID == nid) with
    | none =>
      rw [NotificationService.markAsRead, hfind] at hsucc
      exact absurd hsucc (by simp)
    | some m =>
      have hm' := List.find?_some hfind
      have hm : (m.notificationID == nid) = true := by simpa using hm'
      have hn : n = { m with readStatus := "Read" } := by
        rw [NotificationService.markAsRead, hfind] at hsucc
        simp only [SvcResult.success.injEq] at hsucc
        exact hsucc.symm
      have hg : ∀ x : NotificationRow,
          (if x.notificationID == nid then { x with readStatus := "Read" } else x).notificationID
            = x.notificationID := by
        intro x
        by_cases h : (x.notificationID == nid) <;> simp [h]
      have hfind2 : ((NotificationService.markAsRead db nid).2).notifications.find?
          (fun x => x.notificationID == nid) = some n := by
        rw [NotificationService.markAsRead, hfind]
        simp only []
        rw [find?_map_of_pred _ _ _ (fun x => by rw [hg x]), hfind]
        have hmn : m.notificationID = nid := by simpa using hm'
        simp [hmn, hn]
      rw [NotificationService.markAsRead, hfind2]
      simp only [Prod.mk.injEq, SvcResult.success.injEq]
      constructor
      · rw [hn]
      · rw [NotificationService.markAsRead, hfind]
        simp only [List.map_map]
        congr 1
        apply List.map_congr_left
        intro x _
        simp only [Function.comp_apply]
        by_cases h : (x.notificationID == nid)
        · simp [h]
        · simp [h]

/-- C3 witness: creation ignores the caller-supplied "Read", the stored
transition observed under markAsRead is Unread to Read, and markAsRead
applied twice equals its first application. -/
theorem c3_notification_state_machine_witness :
    bodyC3.readStatus = some "Read"
    ∧ ((DB.mk [] [] [] [] [] [] [] 0 |>
        fun d => (NotificationController.createNotification d bodyC3).1)
        = SvcResult.success nC3 → nC3.readStatus = "Unread")
    ∧ ((NotificationService.markAsRead dbC3 0).1
        = SvcResult.success { nC3 with readStatus := "Read" })
    ∧ NotificationService.markAsRead (NotificationService.markAsRead dbC3 0).2 0
        = (SvcResult.success { nC3 with readStatus := "Read" },
           (NotificationService.markAsRead dbC3 0).2) := by
  refine ⟨rfl, ?_, by decide, ?_⟩
  · intro h
    exact ((c3_notification_state_machine (DB.mk [] [] [] [] [] [] [] 0)).1
      bodyC3 nC3 h).1
  · exact (c3_notification_state_machine dbC3).2.2 0
      { nC3 with readStatus := "Read" } (by decide)

/-- C4: for an existing task, updateTask applies the partial update to the
task row; every subtask entry carrying an identifier patches the row with
that primary key in place (its final value is the fold of the patches
aimed at it); every existing subtask mentioned by no entry is left exactly
as it was (no implicit deletion); each entry without an identifier inserts
exactly one new row; and every inserted row is attached to the task. -/
theorem c4_updateTask_subtasks_frame (db : DB) (taskID : Nat)
    (patch : TaskPatch) (entries : List SubTaskEntry) (t : TaskRow)
    (hwf : DB.subTaskKeysWF db)
    (ht : Task.findByPk db taskID = some t)
    (hvalid : ∀ e ∈ entries, e.subTaskID = none → e.title.isSome) :
    (TaskService.updateTask db taskID patch entries).1
        = SvcResult.success (applyTaskPatch t patch)
    ∧ Task.findByPk (TaskService.updateTask db taskID patch entries).2 taskID
        = some (applyTaskPatch t patch)
    ∧ (∀ sid : Nat, ∀ s0 : SubTaskRow, SubTask.findByPk db sid = some s0 →
        SubTask.findByPk (TaskService.updateTask db taskID patch entries).2 sid
          = some (entries.foldl
              (fun s e => if e.subTaskID == some sid then applySubTaskEntry s e else s) s0))
    ∧ (∀ s ∈ db.subTasks, (∀ e ∈ entries, e.subTaskID ≠ some s.subTaskID) →
        SubTask.findByPk (TaskService.updateTask db taskID patch entries).2 s.subTaskID
          = some s)
    ∧ (TaskService.updateTask db taskID patch entries).2.subTasks.length
        = db.subTasks.length + (entries.filter (fun e => e.subTaskID == none)).length
    ∧ (∀ x ∈ (TaskService.updateTask db taskID patch entries).2.subTasks,
        x.subTaskID < db.nextID ∨ x.taskID = some taskID) := by
  have hpair : TaskService.updateTask db taskID patch entries
      = (SvcResult.success (applyTaskPatch t patch),
         (TaskService.runEntries taskID
            { db with tasks := db.tasks.map (fun x =>
                if x.taskID == taskID then applyTaskPatch x patch else x) }
            entries).2) := by
    simp only [TaskService.updateTask, ht]
    rw [runEntries_err taskID entries _ hvalid]
  have h2 : (TaskService.updateTask db taskID patch entries).2
      = (TaskService.runEntries taskID
          { db with tasks := db.tasks.map (fun x =>
              if x.taskID == taskID then applyTaskPatch x patch else x) }
          entries).2 := by rw [hpair]
  have ht' : db.tasks.find? (fun x => x.taskID == taskID) = some t := ht
  refine ⟨?_, ?_, ?_, ?_, ?_, ?_⟩
  · rw [hpair]
  · show Task.findByPk _ taskID = _
    unfold Task.findByPk
    rw [h2, runEntries_tasks]
    rw [find?_map_of_pred _ _ _ (fun x => by
      by_cases hx : (x.taskID == taskID) <;> simp [hx, applyTaskPatch])]
    rw [ht']
    have htid : (t.taskID == taskID) = true := by simpa using List.find?_some ht'
    simp only [Option.map_some']
    rw [if_pos htid]
  · intro sid s0 hfind
    have hfind' : db.subTasks.find? (fun x => x.subTaskID == sid) = some s0 := hfind
    have hmem := List.mem_of_find?_eq_some hfind'
    have hsid : s0.subTaskID = sid := by simpa using List.find?_some hfind'
    have hlt : sid < db.nextID := hsid ▸ hwf.2 s0 hmem
    show SubTask.findByPk _ sid = _
    unfold SubTask.findByPk
    rw [h2]
    exact runEntries_find?_pk taskID entries _ sid s0 hlt hfind'
  · intro s hs hnone
    have hfind0 : db.subTasks.find? (fun x => x.subTaskID == s.subTaskID) = some s :=
      find?_key_of_mem_nodup (fun x => x.subTaskID) db.subTasks s hwf.1 hs
    have hlt : s.subTaskID < db.nextID := hwf.2 s hs
    show SubTask.findByPk _ s.subTaskID = _
    unfold SubTask.findByPk
    rw [h2]
    rw [runEntries_find?_pk taskID entries
        { db with tasks := db.tasks.map (fun x =>
            if x.taskID == taskID then applyTaskPatch x patch else x) }
        s.subTaskID s hlt hfind0]
    congr 1
    exact foldl_skip applySubTaskEntry
      (fun e => e.subTaskID == some s.subTaskID) entries s
      (fun e he => by simpa using hnone e he)
  · rw [h2]
    exact runEntries_length taskID entries _ hvalid
  · rw [h2]
    intro x hx
    exact runEntries_rows taskID db.nextID entries
      { db with tasks := db.tasks.map (fun y =>
          if y.taskID == taskID then applyTaskPatch y patch else y) }
      (Nat.le_refl _) (fun s hs => Or.inl (hwf.2 s hs)) x hx

/-- C4 witness: the scenario of the specification — status update plus one
entry targeting S1 and one fresh entry — evaluated on a task with two
subtasks; S1 is patched in place, S2 is untouched, and exactly one row is
added. -/
theorem c4_updateTask_subtasks_frame_witness :
    Task.findByPk dbC4 1 = some tC4
    ∧ (TaskService.updateTask dbC4 1 patchC4 [e1C4, e2C4]).1
        = SvcResult.success { tC4 with status := "Completed" }
    ∧ SubTask.findByPk (TaskService.updateTask dbC4 1 patchC4 [e1C4, e2C4]).2 2
        = some { s1C4 with status := "Completed" }
    ∧ SubTask.findByPk (TaskService.updateTask dbC4 1 patchC4 [e1C4, e2C4]).2 3
        = some s2C4
    ∧ (TaskService.updateTask dbC4 1 patchC4 [e1C4, e2C4]).2.subTasks.length = 3 := by
  have hwf : DB.subTaskKeysWF dbC4 := ⟨by decide, by decide⟩
  have main := c4_updateTask_subtasks_frame dbC4 1 patchC4 [e1C4, e2C4] tC4
    hwf (by decide) (by decide)
  refine ⟨by decide, ?_, ?_, ?_, ?_⟩
  · rw [main.1]; decide
  · rw [main.2.2.1 2 s1C4 (by decide)]; decide
  · exact main.2.2.2.1 s2C4 (by decide) (by decide)
  · rw [main.2.2.2.2.1]; decide

theorem createSubTasks_tasks (tid : Nat) (ds : List SubTaskData) (db : DB) :
    (TaskService.createSubTasks tid db ds).2.tasks = db.tasks := by
  induction ds generalizing db with
  | nil => rfl
  | cons d ds ih =>
    cases ht : d.title with
    | none => simpa [TaskService.createSubTasks, SubTask.create, ht] using ih db
    | some ttl => simpa [TaskService.createSubTasks, SubTask.create, ht] using ih _

theorem createSubTasks_err_none (tid : Nat) (ds : List SubTaskData) (db : DB) :
    (TaskService.createSubTasks tid db ds).1 = none
      ↔ ∀ d ∈ ds, d.title.isSome := by
  induction ds generalizing db with
  | nil => simp [TaskService.createSubTasks]
  | cons d ds ih =>
    cases ht : d.title with
    | none => simp [TaskService.createSubTasks, SubTask.create, ht]
    | some ttl => simp [TaskService.createSubTasks, SubTask.create, ht, ih]

theorem createSubTasks_length (tid : Nat) (ds : List SubTaskData) (db : DB) :
    (TaskService.createSubTasks tid db ds).2.subTasks.length
      = db.subTasks.length + (ds.filter (fun d => d.title.isSome)).length := by
  induction ds generalizing db with
  | nil => simp [TaskService.createSubTasks]
  | cons d ds ih =>
    cases ht : d.title with
    | none =>
      simp [TaskService.createSubTasks, SubTask.create, ht, ih, List.filter_cons]
    | some ttl =>
      simp [TaskService.createSubTasks, SubTask.create, ht, ih, List.filter_cons]
      omega

theorem createSubTasks_rows (tid : Nat) (ds : List SubTaskData) (db : DB) :
    ∀ x ∈ (TaskService.createSubTasks tid db ds).2.subTasks,
      x ∈ db.subTasks ∨ x.taskID = some tid := by
  induction ds generalizing db with
  | nil =>
    intro x hx
    left
    simpa [TaskService.createSubTasks] using hx
  | cons d ds ih =>
    intro x hx
    cases ht : d.title with
    | none =>
      simp only [TaskService.createSubTasks, SubTask.create, ht] at hx
      exact ih db x hx
    | some ttl =>
      simp only [TaskService.createSubTasks, SubTask.create, ht] at hx
      rcases ih _ x hx with h | h
      · simp only [List.mem_append, List.mem_singleton] at h
        rcases h with h' | rfl
        · exact Or.inl h'
        · exact Or.inr rfl
      · exact Or.inr h

/-- C5: saveTask inserts the Task row first and then each subtask with the
new task identifier as foreign key; it answers a success envelope exactly
when every subtask insert succeeded, yet even when one is rejected the
already-inserted Task row remains findable and every subtask whose insert
succeeded remains counted in the store — best-effort, no rollback. -/
theorem c5_saveTask_best_effort (db : DB) (taskData : TaskData)
    (subTasksData : List SubTaskData) (t1 : TaskRow) (db1 : DB)
    (hwfT : DB.taskKeysWF db)
    (hc : Task.create db taskData = Except.ok (t1, db1)) :
    Task.findByPk (TaskService.saveTask db taskData subTasksData).2 t1.taskID = some t1
    ∧ ((TaskService.saveTask db taskData subTasksData).1 = SvcResult.success t1
        ↔ ∀ d ∈ subTasksData, d.title.isSome)
    ∧ (TaskService.saveTask db taskData subTasksData).2.subTasks.length
        = db.subTasks.length + (subTasksData.filter (fun d => d.title.isSome)).length
    ∧ ∀ x ∈ (TaskService.saveTask db taskData subTasksData).2.subTasks,
        x ∈ db.subTasks ∨ x.taskID = some t1.taskID := by
  cases htd : taskData.title with
  | none => simp [Task.create, htd] at hc
  | some ttl =>
    simp only [Task.create, htd, Except.ok.injEq, Prod.mk.injEq] at hc
    obtain ⟨hct, hcdb⟩ := hc
    subst hcdb
    have htid : t1.taskID = db.nextID := by rw [← hct]
    have hsnd : (TaskService.saveTask db taskData subTasksData).2
        = (TaskService.createSubTasks t1.taskID
            { db with tasks := db.tasks ++ [t1], nextID := db.nextID + 1 }
            subTasksData).2 := by
      simp only [TaskService.saveTask, Task.create, htd, hct]
      cases hr : (TaskService.createSubTasks t1.taskID
          { db with tasks := db.tasks ++ [t1], nextID := db.nextID + 1 }
          subTasksData).1 with
      | none => rfl
      | some msg => rfl
    refine ⟨?_, ?_, ?_, ?_⟩
    · show Task.findByPk _ t1.taskID = _
      unfold Task.findByPk
      rw [hsnd, createSubTasks_tasks]
      show (db.tasks ++ [t1]).find? (fun x => x.taskID == t1.taskID) = some t1
      rw [List.find?_append]
      rw [List.find?_eq_none.mpr (fun x hx => by
        have hxlt := hwfT.2 x hx
        simp only [beq_iff_eq]
        omega)]
      simp
    · constructor
      · intro hsucc
        cases hr : (TaskService.createSubTasks t1.taskID
            { db with tasks := db.tasks ++ [t1], nextID := db.nextID + 1 }
            subTasksData).1 with
        | none => exact (createSubTasks_err_none _ _ _).mp hr
        | some msg =>
          rw [TaskService.saveTask] at hsucc
          simp only [Task.create, htd, hct] at hsucc
          rw [hr] at hsucc
          simp at hsucc
      · intro hall
        have hr := (createSubTasks_err_none t1.taskID subTasksData
          { db with tasks := db.tasks ++ [t1], nextID := db.nextID + 1 }).mpr hall
        rw [TaskService.saveTask]
        simp only [Task.create, htd, hct]
        rw [hr]
    · rw [hsnd, createSubTasks_length]
    · rw [hsnd]
      intro x hx
      exact createSubTasks_rows t1.taskID subTasksData
        { db with tasks := db.tasks ++ [t1], nextID := db.nextID + 1 } x hx

/-- C5 witness: a create with one valid and one invalid subtask payload —
the call reports an error, yet the Task row is findable and the valid
subtask was inserted. -/
theorem c5_saveTask_best_effort_witness :
    Task.create dbC5 tdC5 = Except.ok (tC5, dbC5b)
    ∧ Task.findByPk (TaskService.saveTask dbC5 tdC5 [sdGoodC5, sdBadC5]).2 0 = some tC5
    ∧ ¬ (TaskService.saveTask dbC5 tdC5 [sdGoodC5, sdBadC5]).1 = SvcResult.success tC5
    ∧ (TaskService.saveTask dbC5 tdC5 [sdGoodC5, sdBadC5]).2.subTasks.length = 1 := by
  have hc : Task.create dbC5 tdC5 = Except.ok (tC5, dbC5b) := rfl
  have main := c5_saveTask_best_effort dbC5 tdC5 [sdGoodC5, sdBadC5] tC5 dbC5b
    ⟨by decide, by decide⟩ hc
  refine ⟨hc, main.1, ?_, ?_⟩
  · intro hcontra
    have hall := main.2.1.mp hcontra
    have hbad := hall sdBadC5 (by decide)
    simp [sdBadC5] at hbad
  · rw [main.2.2.1]
    decide

/-- C1: the envelope built by Messages.success — returned verbatim to the
HTTP caller by every controller — carries its payload under the key
"message" and has no key "data", contradicting the claim (and the
controllers' and services' own documentation, which promise data); the
error envelope does carry status "error" with the message string. -/
theorem c1_success_payload_key :
    (Messages.success "2024-01-01T00:00:00.000Z" (Json.str "payload")).lookup "data" = none
    ∧ (Messages.success "2024-01-01T00:00:00.000Z" (Json.str "payload")).lookup "message"
        = some (Json.str "payload")
    ∧ (Messages.success "2024-01-01T00:00:00.000Z" (Json.str "payload")).lookup "status"
        = some (Json.str "success")
    ∧ (Messages.error "2024-01-01T00:00:00.000Z" (Json.str "oops")).lookup "status"
        = some (Json.str "error")
    ∧ (Messages.error "2024-01-01T00:00:00.000Z" (Json.str "oops")).lookup "message"
        = some (Json.str "oops") :=
  ⟨rfl, rfl, rfl, rfl, rfl⟩

/-- C6: evaluated on a store where the only task belongs to workspace 10
but is linked to a tag named urgent of workspace 20, the tag search scoped
to workspace 20 returns that task although its own workspaceID is 10 —
findTasksByTag filters the tag's workspace, not the task's, so not every
returned task belongs to the given workspace. -/
theorem c6_findTasksByTag_crosses_workspace :
    TaskService.findTasksByTag dbC6 "urgent" 20 = SvcResult.success [tC6]
    ∧ tC6.workspaceID = some 10
    ∧ some (10 : Nat) ≠ some (20 : Nat) :=
  ⟨by decide, rfl, by decide⟩

/-- C7 counterexample: with no user carrying the email, the verify
callback fails with the message "Incorrect email." — with a trailing
period — which is not the string "Incorrect email" the claim states. -/
theorem c7_incorrect_email_counterexample :
    localStrategyVerify (fun _ _ => false) [] "a@b.c" "pw"
        = AuthResult.failure "Incorrect email."
    ∧ "Incorrect email." ≠ "Incorrect email" :=
  ⟨rfl, by decide⟩

/-- C7 (amended): the credential check fails with the message
"Incorrect email." exactly when no user carries the given email; when the
user found under the email fails the stored-hash comparison it fails with
"Incorrect password."; and when the comparison succeeds it succeeds with
that user row. -/
theorem c7_credential_check (compare : String → String → Bool)
    (users : List UserRow) (email password : String) :
    ((∀ u ∈ users, u.Email ≠ email) →
      localStrategyVerify compare users email password
        = AuthResult.failure "Incorrect email.")
    ∧ (∀ u : UserRow, users.find? (fun x => x.Email == email) = some u →
        (compare password u.Password = false →
          localStrategyVerify compare users email password
            = AuthResult.failure "Incorrect password.")
        ∧ (compare password u.Password = true →
          localStrategyVerify compare users email password
            = AuthResult.success u)) := by
  constructor
  · intro h
    unfold localStrategyVerify
    rw [List.find?_eq_none.mpr (fun u hu => by simpa using h u hu)]
  · intro u hu
    constructor
    · intro hcmp
      unfold localStrategyVerify
      rw [hu]
      simp [hcmp]
    · intro hcmp
      unfold localStrategyVerify
      rw [hu]
      simp [hcmp]

/-- C7 witness: the amended credential check evaluated on one stored user
under a concrete hash-comparison model: unknown email, wrong password and
correct password each answer as stated. -/
theorem c7_credential_check_witness :
    localStrategyVerify cmpC7 [uC7] "z@z.z" "pw"
        = AuthResult.failure "Incorrect email."
    ∧ localStrategyVerify cmpC7 [uC7] "a@b.c" "nope"
        = AuthResult.failure "Incorrect password."
    ∧ localStrategyVerify cmpC7 [uC7] "a@b.c" "pw"
        = AuthResult.success uC7 := by
  refine ⟨?_, ?_, ?_⟩
  · exact (c7_credential_check cmpC7 [uC7] "z@z.z" "pw").1 (by decide)
  · exact ((c7_credential_check cmpC7 [uC7] "a@b.c" "nope").2 uC7
      (by decide)).1 (by decide)
  · exact ((c7_credential_check cmpC7 [uC7] "a@b.c" "pw").2 uC7
      (by decide)).2 (by decide)

/-- C8: the user create path persists the caller-supplied password
verbatim: saveUser on a plaintext password stores exactly that string in
the Password column (no hashing call exists anywhere in the repository),
so the stored value is the plaintext itself, not a hash of it. -/
theorem c8_plaintext_password_persisted :
    (UserService.saveUser dbC8 udC8).1 = SvcResult.success (UserView.toDTO uC8)
    ∧ (UserService.saveUser dbC8 udC8).2.users = [uC8]
    ∧ uC8.Password = "plaintextpw"
    ∧ udC8.Password = some "plaintextpw" :=
  ⟨by decide, by decide, rfl, rfl⟩

/-- C9: create followed by findByID returns the stored entity with every
caller-supplied field intact: a saved tag is found again under the new
identifier with exactly the input name and workspace, and a saved user is
found again through the view projection with the input email and phone and
the fullName rendered from the input name parts. -/
theorem c9_create_findByID_roundtrip (db : DB) :
    (∀ d : TagData, ∀ nm : String, DB.tagKeysWF db → d.name = some nm →
      ∃ g : TagRow,
        (TagService.saveTag db d).1 = SvcResult.success g
        ∧ TagService.findTagByID (TagService.saveTag db d).2 g.tagID
            = SvcResult.success g
        ∧ g.name = nm ∧ g.workspaceID = d.workspaceID)
    ∧ (∀ ud : UserData, ∀ fn ln em pw : String, DB.userKeysWF db →
        ud.firstName = some fn → ud.lastName = some ln → ud.Email = some em →
        ud.Password = some pw →
        ∀ dto : UserDTO, (UserService.saveUser db ud).1 = SvcResult.success dto →
          UserService.findUserByID (UserService.saveUser db ud).2 dto.userId
              = SvcResult.success dto
          ∧ dto.email = em ∧ dto.phoneNumber = ud.phoneNumber
          ∧ dto.fullName = fn ++ " " ++ ln) := by
  constructor
  · intro d nm hwf hd
    refine ⟨{ tagID := db.nextID, workspaceID := d.workspaceID, name := nm },
      ?_, ?_, rfl, rfl⟩
    · simp [TagService.saveTag, Tag.create, hd]
    · simp only [TagService.saveTag, Tag.create, hd]
      unfold TagService.findTagByID Tag.findByPk
      simp only []
      rw [List.find?_append]
      rw [List.find?_eq_none.mpr (fun g hg => by
        have := hwf g hg
        simp only [beq_iff_eq]
        omega)]
      simp
  · intro ud fn ln em pw hwf hfn hln hem hpw dto hsucc
    by_cases hv : (User.nameOK fn && User.nameOK ln && User.phoneOK ud.phoneNumber
        && decide (8 ≤ pw.length) && decide (pw.length ≤ 100)
        && !(db.users.any (fun u => u.Email == em))) = true
    · simp only [UserService.saveUser, User.create, hfn, hln, hem, hpw,
        if_pos hv, SvcResult.success.injEq] at hsucc
      subst hsucc
      refine ⟨?_, rfl, rfl, rfl⟩
      simp only [UserService.saveUser, User.create, hfn, hln, hem, hpw,
        if_pos hv]
      unfold UserService.findUserByID
      simp only []
      rw [List.find?_append]
      rw [List.find?_eq_none.mpr (fun u hu => by
        have := hwf u hu
        simp only [UserView.toDTO, beq_iff_eq]
        omega)]
      simp [UserView.toDTO]
    · simp only [UserService.saveUser, User.create, hfn, hln, hem, hpw,
        if_neg hv] at hsucc
      exact absurd hsucc (by simp)

/-- C9 witness: the round trip evaluated on an empty store for a concrete
tag payload and a concrete user payload. -/
theorem c9_create_findByID_roundtrip_witness :
    (TagService.saveTag dbC9 tdC9).1 = SvcResult.success gC9
    ∧ TagService.findTagByID (TagService.saveTag dbC9 tdC9).2 0
        = SvcResult.success gC9
    ∧ (UserService.saveUser dbC9 udC9).1 = SvcResult.success dtoC9
    ∧ UserService.findUserByID (UserService.saveUser dbC9 udC9).2 0
        = SvcResult.success dtoC9 := by
  obtain ⟨g, h1, h2, h3, h4⟩ :=
    (c9_create_findByID_roundtrip dbC9).1 tdC9 "blue"
      (by intro g hg; cases hg) rfl
  have hconc : (TagService.saveTag dbC9 tdC9).1 = SvcResult.success gC9 := by decide
  have hg : g = gC9 := by
    have := h1.symm.trans hconc
    simpa using this
  subst hg
  have husucc : (UserService.saveUser dbC9 udC9).1 = SvcResult.success dtoC9 := by
    decide
  have hu := (c9_create_findByID_roundtrip dbC9).2 udC9 "John" "Doe" "j@d.com"
    "password1" (by intro u hu; cases hu) rfl rfl rfl rfl dtoC9 husucc
  exact ⟨hconc, h2, husucc, hu.1⟩

/-- C10: the user name search answers the "No search parameters provided"
error envelope when neither name is (truthily) supplied, and the
"No users found matching the criteria" error envelope — not an empty
success — when the equality filter matches no stored user. -/
theorem c10_searchUsersByName_errors (db : DB)
    (firstName lastName : Option String) :
    (UserService.provided firstName = false →
      UserService.provided lastName = false →
      UserService.searchUsersByName db firstName lastName
        = SvcResult.error "No search parameters provided")
    ∧ ((UserService.provided firstName = true
          ∨ UserService.provided lastName = true) →
      db.users.filter (fun u =>
          (!UserService.provided firstName || u.firstName == firstName.getD "")
          && (!UserService.provided lastName || u.lastName == lastName.getD "")) = [] →
      UserService.searchUsersByName db firstName lastName
        = SvcResult.error "No users found matching the criteria") := by
  constructor
  · intro h1 h2
    unfold UserService.searchUsersByName
    rw [if_pos (by simp [h1, h2])]
  · intro hq hempty
    unfold UserService.searchUsersByName
    rw [if_neg (by rcases hq with h | h <;> simp [h]), hempty]
    simp

/-- C10 witness: the search theorem evaluated on a store holding one user
named Ann Bee — an all-empty filter and a non-matching filter each answer
the stated error envelope. -/
theorem c10_searchUsersByName_errors_witness :
    UserService.searchUsersByName dbC10 none (some "")
        = SvcResult.error "No search parameters provided"
    ∧ UserService.searchUsersByName dbC10 (some "Zed") none
        = SvcResult.error "No users found matching the criteria" := by
  refine ⟨?_, ?_⟩
  · exact (c10_searchUsersByName_errors dbC10 none (some "")).1 rfl rfl
  · exact (c10_searchUsersByName_errors dbC10 (some "Zed") none).2
      (Or.inl (by decide)) (by decide)

end TodoBackend
